import Mathlib

/-!
Verification of the pilot2 event-service core and the generic HPC workflow.

The development shallowly embeds:
* the test hook `TestESHook` from `pilot/test/test_eventservice.py`
  (its `get_event_ranges` / `handle_out_message` bookkeeping);
* the event-service process driver, message thread, message parser and
  manager, which are modelled from the specification because their modules
  (`pilot/eventservice/esprocess.py` and friends) are not part of the
  available sources, only their tests are;
* the `run` function of `pilot/workflow/generic_hpc.py`.

Protocol text is represented as `List Char` so that every parsing function
is evaluable by the kernel; `String` wrappers connect the model to the
literal message lines of the tests and the spec.
-/

namespace Pilot2

/-- Status of a parsed out-message: the protocol knows exactly the two
terminal statuses finished and failed. -/
inductive MsgStatus where
  | finished
  | failed
  deriving DecidableEq, Repr

/-- Modelled from the spec: `OutMessage` is
`{id, status, output?, cpu?, wall?, message}` created by the parser from one
inbound protocol line. -/
structure OutMessage where
  id : String
  status : MsgStatus
  output : Option String
  cpu : Option Nat
  wall : Option Nat
  message : String
  deriving DecidableEq, Repr

/-- Splits a character list on a separator character; like the Python
`str.split(sep)`, adjacent separators and boundary separators produce empty
groups. -/
def splitOnChar (c : Char) : List Char → List (List Char)
  | [] => [[]]
  | x :: xs =>
    let r := splitOnChar c xs
    if x = c then [] :: r
    else
      match r with
      | [] => [[x]]
      | g :: gs => (x :: g) :: gs

/-- `tokensOf cs` is the whitespace tokenization of a line: split on spaces
and drop empty tokens, like the Python `str.split()`. -/
def tokensOf (cs : List Char) : List (List Char) :=
  (splitOnChar ' ' cs).filter (fun t => t ≠ [])

/-- `startsWithTok pre cs` is true when `pre` is an initial segment of
`cs`. -/
def startsWithTok : List Char → List Char → Bool
  | [], _ => true
  | _ :: _, [] => false
  | p :: ps, c :: cs => p = c && startsWithTok ps cs

/-- Parses a nonempty all-digit character list as a decimal natural
number. -/
def charsToNat? (cs : List Char) : Option Nat :=
  if cs = [] then none
  else if cs.all (fun c => c.isDigit) then
    some (cs.foldl (fun n c => 10 * n + (c.toNat - 48)) 0)
  else none

/-- Modelled from the spec: the canonical event-range id is a multi-segment
hyphen-separated identifier; every id exhibited by the spec and the tests has
five segments (for example `130-2068634812-21368-1-4`). -/
def canonicalIdSegments : Nat := 5

/-- Modelled from the spec: strip any trailing hyphen-delimited event-index
suffix beyond the canonical multi-segment id from an identifier token. -/
def strip_event_index (tok : List Char) : List Char :=
  let segs := splitOnChar '-' tok
  if canonicalIdSegments < segs.length then
    List.intercalate ['-'] (segs.take canonicalIdSegments)
  else tok

/-- Modelled from the spec: failure shape of an inbound line — a token
beginning `ERR_`, whitespace, an identifier token, a colon, and a free-text
reason. Returns the event-range id (suffix-stripped) when the line matches,
`none` otherwise. -/
def match_failure_shape (cs : List Char) : Option (List Char) :=
  match tokensOf cs with
  | errTok :: idTok :: _r :: _rest =>
    if startsWithTok "ERR_".data errTok && idTok.getLast? = some ':' then
      some (strip_event_index idTok.dropLast)
    else
      none
  | _ => none

/-- Looks up the first segment starting with `key` and returns its value part.
Helper for the success shape: the comma-separated segments after the leading
file path are `KEY:value` pairs. -/
def findKeyValue (key : List Char) : List (List Char) → Option (List Char)
  | [] => none
  | s :: rest =>
    if startsWithTok key s then some (s.drop key.length)
    else findKeyValue key rest

/-- Modelled from the spec: success shape of an inbound line — a leading
file-path segment followed by comma-separated `KEY:value` segments including
`ID:<id>`, `CPU:<n>`, `WALL:<n>`. Returns `(path, id, cpu, wall)` when the
line matches, `none` otherwise. -/
def match_success_shape (cs : List Char) :
    Option (List Char × List Char × Nat × Nat) :=
  match splitOnChar ',' cs with
  | path :: segs =>
    match findKeyValue "ID:".data segs, findKeyValue "CPU:".data segs,
        findKeyValue "WALL:".data segs with
    | some i, some c, some w =>
      match charsToNat? c, charsToNat? w with
      | some cn, some wn => some (path, i, cn, wn)
      | _, _ => none
    | _, _, _ => none
  | [] => none

/-- Modelled from the spec: `parse_out_message(text) -> OutMessage` is pure,
total and deterministic; it recognizes exactly the failure shape and the
success shape, and treats any other input as
`{status: failed, id: "", message: text}` without raising.
(The module `pilot/eventservice/esprocess.py` is not among the available
sources; only its tests are.) -/
def parse_out_message (text : String) : OutMessage :=
  match match_failure_shape text.data with
  | some i =>
    { id := String.mk i, status := .failed, output := none, cpu := none,
      wall := none, message := text }
  | none =>
    match match_success_shape text.data with
    | some (path, i, c, w) =>
      { id := String.mk i, status := .finished, output := some (String.mk path),
        cpu := some c, wall := some w, message := text }
    | none =>
      { id := "", status := .failed, output := none, cpu := none, wall := none,
        message := text }

/-! ## The test hook (`TestESHook` in `pilot/test/test_eventservice.py`)

The hook keeps three pieces of state: the backing store of event ranges
(loaded from a job description file), the record of injected event ranges,
and the collected out-messages. Event ranges are abstract values (`α`); the
end-to-end model instantiates `α` with the range id. -/

/-- State of a `TestESHook` instance: `event_ranges` is the remaining backing
store, `injected_event_ranges` records every range handed out, and `outputs`
records every message passed to `handle_out_message`. -/
structure ESHookState (α : Type) (β : Type) where
  event_ranges : List α
  injected_event_ranges : List α
  outputs : List β
  deriving DecidableEq, Repr

/-- The loop body of `TestESHook.get_event_ranges`: `num_ranges` iterations,
each popping the front of the store (when nonempty) and appending it to the
returned list. Returns the returned list and the remaining store. -/
def popRanges {α : Type} : Nat → List α → List α × List α
  | 0, evs => ([], evs)
  | _ + 1, [] => ([], [])
  | n + 1, e :: evs =>
    let (ret, rest) := popRanges n evs
    (e :: ret, rest)

/-- `TestESHook.get_event_ranges(num_ranges)`: pops up to `num_ranges` event
ranges off the front of the store, records them as injected, and returns
them together with the updated hook state. -/
def get_event_ranges {α β : Type} (st : ESHookState α β) (num_ranges : Nat) :
    List α × ESHookState α β :=
  let (ret, rest) := popRanges num_ranges st.event_ranges
  (ret,
    { st with
      event_ranges := rest
      injected_event_ranges := st.injected_event_ranges ++ ret })

/-- `TestESHook.handle_out_message(message)`: appends the message to the
collected outputs. -/
def handle_out_message {α β : Type} (st : ESHookState α β) (message : β) :
    ESHookState α β :=
  { st with outputs := st.outputs ++ [message] }

/-- `TestESHook.get_injected_event_ranges()`. -/
def get_injected_event_ranges {α β : Type} (st : ESHookState α β) : List α :=
  st.injected_event_ranges

/-- `TestESHook.get_outputs()`. -/
def get_outputs {α β : Type} (st : ESHookState α β) : List β :=
  st.outputs

/-- Hook state after `k` successive calls of `get_event_ranges st n`. -/
def hookAfterCalls {α β : Type} (st : ESHookState α β) (n : Nat) :
    Nat → ESHookState α β
  | 0 => st
  | k + 1 => (get_event_ranges (hookAfterCalls st n k) n).2

/-- Result of the `(k+1)`-st call in the sequence of successive
`get_event_ranges st n` calls. -/
def hookResultAt {α β : Type} (st : ESHookState α β) (n : Nat) (k : Nat) :
    List α :=
  (get_event_ranges (hookAfterCalls st n k) n).1

/-- Runs `get_event_ranges` once per entry of `ns` (the entry being the
`num_ranges` argument of that call) and collects the returned batches. -/
def runCalls {α β : Type} (st : ESHookState α β) :
    List Nat → ESHookState α β × List (List α)
  | [] => (st, [])
  | n :: ns =>
    let (ret, st2) := get_event_ranges st n
    let (stf, rets) := runCalls st2 ns
    (stf, ret :: rets)

/-! ### Basic lemmas about the hook operations -/

theorem popRanges_eq {α : Type} (n : Nat) (evs : List α) :
    popRanges n evs = (evs.take n, evs.drop n) := by
  induction n generalizing evs with
  | zero => simp [popRanges]
  | succ n ih =>
    cases evs with
    | nil => simp [popRanges]
    | cons e evs => simp [popRanges, ih]

theorem get_event_ranges_eq {α β : Type} (st : ESHookState α β) (n : Nat) :
    get_event_ranges st n =
      (st.event_ranges.take n,
        { st with
          event_ranges := st.event_ranges.drop n
          injected_event_ranges :=
            st.injected_event_ranges ++ st.event_ranges.take n }) := by
  simp [get_event_ranges, popRanges_eq]

theorem hookAfterCalls_event_ranges {α β : Type} (st : ESHookState α β)
    (n k : Nat) :
    (hookAfterCalls st n k).event_ranges = st.event_ranges.drop (n * k) := by
  induction k with
  | zero => simp [hookAfterCalls]
  | succ k ih =>
    simp [hookAfterCalls, get_event_ranges_eq, ih, List.drop_drop,
      Nat.mul_succ, Nat.add_comm]

theorem hookResultAt_eq {α β : Type} (st : ESHookState α β) (n k : Nat) :
    hookResultAt st n k = (st.event_ranges.drop (n * k)).take n := by
  simp [hookResultAt, get_event_ranges_eq, hookAfterCalls_event_ranges]

theorem runCalls_invariant {α β : Type} (st : ESHookState α β)
    (ns : List Nat) :
    (runCalls st ns).1.injected_event_ranges =
        st.injected_event_ranges ++ (runCalls st ns).2.flatten ∧
      (runCalls st ns).2.flatten ++ (runCalls st ns).1.event_ranges =
        st.event_ranges := by
  induction ns generalizing st with
  | nil => simp [runCalls]
  | cons n ns ih =>
    have h := ih ({ st with
      event_ranges := st.event_ranges.drop n
      injected_event_ranges :=
        st.injected_event_ranges ++ st.event_ranges.take n } : ESHookState α β)
    simp only [runCalls, get_event_ranges_eq]
    constructor
    · simp [h.1, List.append_assoc]
    · simp only [List.flatten_cons, List.append_assoc, h.2]
      exact List.take_append_drop n st.event_ranges

/-- C6: for every hook state and every positive `n`, each call of
`get_event_ranges n` returns between `0` and `n` event ranges; repeated calls
eventually return the empty list, and once a call has returned the empty
list every later call does as well (exhaustion is stable). -/
theorem spec_c6_get_event_ranges_bounded_and_exhaustion {α β : Type}
    (st : ESHookState α β) (n : Nat) (hn : 1 ≤ n) :
    (∀ k, (hookResultAt st n k).length ≤ n) ∧
      (∃ m, ∀ k, m ≤ k → hookResultAt st n k = []) ∧
      (∀ k, hookResultAt st n k = [] → hookResultAt st n (k + 1) = []) := by
  refine ⟨fun k => ?_, ⟨st.event_ranges.length, fun k hk => ?_⟩, fun k hk => ?_⟩
  · rw [hookResultAt_eq]
    simp
  · rw [hookResultAt_eq]
    have hle : st.event_ranges.length ≤ n * k :=
      le_trans hk (le_trans (Nat.le_mul_of_pos_left k hn) (le_refl _))
    rw [List.drop_eq_nil_of_le hle]
    simp
  · rw [hookResultAt_eq] at hk ⊢
    rcases (List.take_eq_nil_iff).1 hk with h | h
    · omega
    · have : st.event_ranges.length ≤ n * k := by
        by_contra hcon
        push_neg at hcon
        have := List.drop_eq_nil_iff.1 h
        omega
      have hle : st.event_ranges.length ≤ n * (k + 1) := by
        calc st.event_ranges.length ≤ n * k := this
          _ ≤ n * (k + 1) := Nat.mul_le_mul_left n (Nat.le_succ k)
      rw [List.drop_eq_nil_of_le hle]
      simp

/-- C6 witness: concrete instance with a three-element store and `n = 2`. -/
theorem spec_c6_get_event_ranges_bounded_and_exhaustion_witness :
    (1 : Nat) ≤ 2 ∧
      ((∀ k, (hookResultAt
          (⟨[10, 20, 30], [], []⟩ : ESHookState Nat Nat) 2 k).length ≤ 2) ∧
        (∃ m, ∀ k, m ≤ k → hookResultAt
          (⟨[10, 20, 30], [], []⟩ : ESHookState Nat Nat) 2 k = []) ∧
        (∀ k, hookResultAt
            (⟨[10, 20, 30], [], []⟩ : ESHookState Nat Nat) 2 k = [] →
          hookResultAt
            (⟨[10, 20, 30], [], []⟩ : ESHookState Nat Nat) 2 (k + 1) = [])) :=
  ⟨by decide,
    spec_c6_get_event_ranges_bounded_and_exhaustion
      (⟨[10, 20, 30], [], []⟩ : ESHookState Nat Nat) 2 (by decide)⟩

/-- C10: across any sequence of `get_event_ranges` calls, the injected-event
record equals the concatenation of all returned batches, that concatenation
followed by the remaining store reconstitutes the initial store (nothing
lost, reordered or invented), and no element is returned more often than it
occurs in the initial store (with a distinct initial store: at most once). -/
theorem spec_c10_injected_ranges_invariant {α β : Type} [DecidableEq α]
    (ranges : List α) (ns : List Nat) :
    (runCalls (⟨ranges, [], []⟩ : ESHookState α β) ns).1.injected_event_ranges
        = (runCalls (⟨ranges, [], []⟩ : ESHookState α β) ns).2.flatten ∧
      (runCalls (⟨ranges, [], []⟩ : ESHookState α β) ns).2.flatten ++
          (runCalls (⟨ranges, [], []⟩ : ESHookState α β) ns).1.event_ranges
        = ranges ∧
      ∀ x, ((runCalls (⟨ranges, [], []⟩ : ESHookState α β) ns).2.flatten.count x)
        ≤ ranges.count x := by
  have h := runCalls_invariant (⟨ranges, [], []⟩ : ESHookState α β) ns
  have h2 : (runCalls (⟨ranges, [], []⟩ : ESHookState α β) ns).2.flatten ++
      (runCalls (⟨ranges, [], []⟩ : ESHookState α β) ns).1.event_ranges
      = ranges := h.2
  refine ⟨by simpa using h.1, h2, fun x => ?_⟩
  conv_rhs => rw [← h2]
  rw [List.count_append]
  exact Nat.le_add_right _ _

/-! ## The channel thread (`MessageThread` in `pilot/eventservice/esmessage.py`)

Modelled from the spec: the module is not among the available sources. The
thread owns a socket-style endpoint; its observable state is whether the loop
is executing (`alive`), whether stop was requested (`stop_requested`), the
pending outbound sends, the lines already delivered to the endpoint and the
shared inbound queue. One `loop_step` is one bounded-timeout poll iteration:
it drains the pending sends to the endpoint, forwards arrived inbound lines
to the queue in order, and exits (clears `alive`) when stop has been
requested and no send is in flight. -/

/-- Observable state of a `MessageThread`. -/
structure MessageThreadState where
  alive : Bool
  stop_requested : Bool
  pending_sends : List String
  sent_to_socket : List String
  queue : List String
  deriving DecidableEq, Repr

namespace MessageThread

/-- A freshly constructed thread: not started, not stopped, empty buffers. -/
def init : MessageThreadState :=
  { alive := false, stop_requested := false, pending_sends := [],
    sent_to_socket := [], queue := [] }

/-- Modelled from the spec: `start()` begins the background loop. -/
def start (t : MessageThreadState) : MessageThreadState :=
  { t with alive := true }

/-- Modelled from the spec: `send(text)` enqueues one outbound line; it is a
total state transformation, so the caller is never blocked on delivery. -/
def send (t : MessageThreadState) (x : String) : MessageThreadState :=
  { t with pending_sends := t.pending_sends ++ [x] }

/-- Modelled from the spec: `stop()` requests termination. -/
def stop (t : MessageThreadState) : MessageThreadState :=
  { t with stop_requested := true }

/-- Modelled from the spec: `stopped()` reflects whether stop was
requested. -/
def stopped (t : MessageThreadState) : Bool :=
  t.stop_requested

/-- Modelled from the spec: `is_alive()` reflects whether the loop is still
executing. -/
def is_alive (t : MessageThreadState) : Bool :=
  t.alive

/-- Modelled from the spec: one poll iteration of the loop, with `inbound`
the lines received from the endpoint during this iteration. -/
def loop_step (t : MessageThreadState) (inbound : List String) :
    MessageThreadState :=
  let t := { t with
    sent_to_socket := t.sent_to_socket ++ t.pending_sends
    pending_sends := []
    queue := t.queue ++ inbound }
  if t.stop_requested then { t with alive := false } else t

end MessageThread

/-- C7: for every channel-thread state, `start` makes `is_alive` true;
`send` never blocks the caller — it is a total operation that only appends
the line to the pending sends, leaving liveness and the stop flag untouched;
after `stop`, `stopped` is true and `is_alive` is false within one poll
iteration (the bounded delay); and `stop` is idempotent. -/
theorem spec_c7_message_thread_lifecycle (t : MessageThreadState) (x : String)
    (inbound : List String) :
    MessageThread.is_alive (MessageThread.start t) = true ∧
      (MessageThread.send t x).pending_sends = t.pending_sends ++ [x] ∧
      MessageThread.is_alive (MessageThread.send t x) =
        MessageThread.is_alive t ∧
      MessageThread.stopped (MessageThread.send t x) =
        MessageThread.stopped t ∧
      MessageThread.stopped (MessageThread.stop t) = true ∧
      MessageThread.is_alive
        (MessageThread.loop_step (MessageThread.stop t) inbound) = false ∧
      MessageThread.stop (MessageThread.stop t) = MessageThread.stop t := by
  simp [MessageThread.start, MessageThread.send, MessageThread.stop,
    MessageThread.stopped, MessageThread.is_alive, MessageThread.loop_step]

/-! ## The process driver (`ESProcess` in `pilot/eventservice/esprocess.py`)

Modelled from the spec: the module is not among the available sources, only
its tests are. The driver stores the payload spec and two bindable hook
slots, runs the protocol loop, and walks the state machine
INIT → SPAWNED → RUNNING → {COMPLETED | FAILED} → STOPPED with unconditional
teardown. -/

/-- Hook-slot state of an `ESProcess`: the payload spec given at
construction and the two independently bindable hook slots, both unset until
a setter is called. `γ` and `δ` stand for the callable objects bound into
the slots. -/
structure ESProcessState (γ δ : Type) where
  payload : String
  get_event_ranges_hook : Option γ
  handle_out_message_hook : Option δ
  deriving DecidableEq, Repr

namespace ESProcess

/-- Modelled from the spec: `set_get_event_ranges_hook` stores the callable
in its slot and does nothing else. -/
def set_get_event_ranges_hook {γ δ : Type} (s : ESProcessState γ δ) (f : γ) :
    ESProcessState γ δ :=
  { s with get_event_ranges_hook := some f }

/-- Modelled from the spec: `get_get_event_ranges_hook` returns the stored
callable. -/
def get_get_event_ranges_hook {γ δ : Type} (s : ESProcessState γ δ) :
    Option γ :=
  s.get_event_ranges_hook

/-- Modelled from the spec: `set_handle_out_message_hook` stores the callable
in its slot and does nothing else. -/
def set_handle_out_message_hook {γ δ : Type} (s : ESProcessState γ δ)
    (f : δ) : ESProcessState γ δ :=
  { s with handle_out_message_hook := some f }

/-- Modelled from the spec: `get_handle_out_message_hook` returns the stored
callable. -/
def get_handle_out_message_hook {γ δ : Type} (s : ESProcessState γ δ) :
    Option δ :=
  s.handle_out_message_hook

end ESProcess

/-- C8: the hook binding accessors are identity-preserving round trips with
no side effect beyond storage: after `set_get_event_ranges_hook f` the
getter returns exactly `f` while the payload and the other slot are
untouched, and symmetrically for `set_handle_out_message_hook`. -/
theorem spec_c8_hook_accessors_roundtrip {γ δ : Type}
    (s : ESProcessState γ δ) (f : γ) (g : δ) :
    ESProcess.get_get_event_ranges_hook
        (ESProcess.set_get_event_ranges_hook s f) = some f ∧
      (ESProcess.set_get_event_ranges_hook s f).payload = s.payload ∧
      (ESProcess.set_get_event_ranges_hook s f).handle_out_message_hook =
        s.handle_out_message_hook ∧
      ESProcess.get_handle_out_message_hook
        (ESProcess.set_handle_out_message_hook s g) = some g ∧
      (ESProcess.set_handle_out_message_hook s g).payload = s.payload ∧
      (ESProcess.set_handle_out_message_hook s g).get_event_ranges_hook =
        s.get_event_ranges_hook := by
  simp [ESProcess.set_get_event_ranges_hook,
    ESProcess.get_get_event_ranges_hook,
    ESProcess.set_handle_out_message_hook,
    ESProcess.get_handle_out_message_hook]

/-- Modelled from the spec: the driver state machine
INIT → SPAWNED → RUNNING → {COMPLETED | FAILED} → STOPPED. -/
inductive ESState where
  | INIT
  | SPAWNED
  | RUNNING
  | COMPLETED
  | FAILED
  | STOPPED
  deriving DecidableEq, Repr

/-- The four ways the protocol loop can exit: the child exits with status
zero, the child exits nonzero, the channel fails, or an exception is raised
inside the loop. -/
inductive ExitPath where
  | child_exit_zero
  | child_exit_nonzero
  | channel_failure
  | loop_exception
  deriving DecidableEq, Repr

/-- Outcome of one driver run: the state before teardown, the final state,
and the teardown obligations (channel thread stopped, child waited on,
resources released). -/
structure DriverOutcome where
  pre_stop_state : ESState
  final_state : ESState
  channel_thread_stopped : Bool
  child_process_waited : Bool
  resources_released : Bool
  deriving DecidableEq, Repr

/-- Modelled from the spec: RUNNING goes to COMPLETED exactly when the child
exits with status zero; nonzero child exit, channel failure and an exception
inside the loop all take RUNNING to FAILED. -/
def loop_terminal : ExitPath → ESState
  | .child_exit_zero => .COMPLETED
  | .child_exit_nonzero => .FAILED
  | .channel_failure => .FAILED
  | .loop_exception => .FAILED

/-- Modelled from the spec: teardown runs unconditionally from the terminal
loop state — the channel thread is stopped, the child process is waited on,
resources are released, and the driver ends in STOPPED. -/
def driver_teardown (s : ESState) : DriverOutcome :=
  { pre_stop_state := s, final_state := .STOPPED,
    channel_thread_stopped := true, child_process_waited := true,
    resources_released := true }

/-- Modelled from the spec: a full driver run for a given exit path — the
protocol loop reaches its terminal state and teardown follows on every
path, exceptions included. -/
def esprocess_run (p : ExitPath) : DriverOutcome :=
  driver_teardown (loop_terminal p)

/-- Modelled from the spec: the Manager delegates to the driver, blocks until
STOPPED and reports success exactly when the terminal loop state was
COMPLETED; fatal errors surface as a failed run, with teardown already
done. -/
def esmanager_outcome (p : ExitPath) : Bool × DriverOutcome :=
  let o := esprocess_run p
  (decide (o.pre_stop_state = ESState.COMPLETED), o)

/-- C2: on every exit path of the driver run — child exit zero, nonzero
child exit, channel failure, or an exception inside the protocol loop — the
driver reaches STOPPED with the channel thread stopped, the child waited on
and resources released; the Manager reports success exactly on the
clean-exit path, so every fatal path is reported as a failure while STOPPED
is still reached. -/
theorem spec_c2_stopped_on_every_exit_path (p : ExitPath) :
    (esprocess_run p).final_state = ESState.STOPPED ∧
      (esprocess_run p).channel_thread_stopped = true ∧
      (esprocess_run p).child_process_waited = true ∧
      (esprocess_run p).resources_released = true ∧
      (esmanager_outcome p).1 = decide (p = ExitPath.child_exit_zero) ∧
      (esmanager_outcome p).2.final_state = ESState.STOPPED := by
  cases p <;> simp [esprocess_run, esmanager_outcome, driver_teardown,
    loop_terminal]

/-! ## End-to-end run (`ESManager.run` driving the protocol loop)

Modelled from the spec: the Manager builds the driver from
`hook.get_payload()`, binds the two hook callbacks, and drives the run to
completion. The protocol loop repeatedly serves a work request by calling
the bound `get_event_ranges` hook; under the C1 premise the payload reports
exactly one terminal message per injected range, each of which the driver
parses and forwards to the bound `handle_out_message` hook. A terminal
message is represented by the event-range id it reports; an empty batch is
the end-of-work signal that lets the run complete. The hook is the
source-embedded `TestESHook`. -/

theorem foldl_handle_out_message {α β : Type} (batch : List β)
    (st : ESHookState α β) :
    List.foldl handle_out_message st batch =
      { st with outputs := st.outputs ++ batch } := by
  induction batch generalizing st with
  | nil => simp
  | cons b bs ih => simp [handle_out_message, ih]

/-- Modelled from the spec: the protocol loop of one run, over the test
hook. Each iteration requests up to `n` event ranges; a nonempty batch is
injected into the payload, which reports one terminal message per range,
each forwarded to `handle_out_message`; an empty batch completes the run. -/
def es_run (st : ESHookState String String) (n : Nat) :
    ESHookState String String :=
  if _hbatch : (get_event_ranges st n).1 = [] then (get_event_ranges st n).2
  else
    es_run
      (List.foldl handle_out_message (get_event_ranges st n).2
        (get_event_ranges st n).1) n
termination_by st.event_ranges.length
decreasing_by
  simp only [foldl_handle_out_message, get_event_ranges_eq] at _hbatch ⊢
  have hn : n ≠ 0 := by
    rintro rfl
    simp at _hbatch
  have hev : st.event_ranges ≠ [] := by
    intro he
    rw [he] at _hbatch
    simp at _hbatch
  rw [List.length_drop]
  have hpos : 0 < st.event_ranges.length := List.length_pos.2 hev
  omega

theorem es_run_eq_aux (n : Nat) (hn : 1 ≤ n) :
    ∀ l (st : ESHookState String String), st.event_ranges.length = l →
      es_run st n =
        { event_ranges := []
          injected_event_ranges :=
            st.injected_event_ranges ++ st.event_ranges
          outputs := st.outputs ++ st.event_ranges } := by
  intro l
  induction l using Nat.strong_induction_on with
  | _ l ih =>
  intro st hl
  rw [es_run]
  by_cases h : (get_event_ranges st n).1 = []
  · rw [dif_pos h]
    rw [get_event_ranges_eq] at h ⊢
    have hev : st.event_ranges = [] := by
      rcases List.take_eq_nil_iff.1 h with h1 | h1
      · omega
      · exact h1
    simp [hev]
  · rw [dif_neg h]
    rw [get_event_ranges_eq] at h ⊢
    have hev : st.event_ranges ≠ [] := by
      intro he
      rw [he] at h
      simp at h
    have hlt : (st.event_ranges.drop n).length < l := by
      rw [List.length_drop, ← hl]
      have hpos : 0 < st.event_ranges.length := List.length_pos.2 hev
      omega
    rw [foldl_handle_out_message]
    rw [ih _ hlt _ rfl]
    simp only [List.append_assoc]
    rw [List.take_append_drop]

theorem es_run_eq (st : ESHookState String String) (n : Nat) (hn : 1 ≤ n) :
    es_run st n =
      { event_ranges := []
        injected_event_ranges :=
          st.injected_event_ranges ++ st.event_ranges
        outputs := st.outputs ++ st.event_ranges } :=
  es_run_eq_aux n hn _ st rfl

/-- Modelled from the spec: `ESManager.run()` over a `TestESHook` whose
backing store holds `ranges` — the manager binds the hook callbacks into
the driver and drives the protocol loop to completion with batch size
`n`. -/
def esmanager_run_es (ranges : List String) (n : Nat) :
    ESHookState String String :=
  es_run ⟨ranges, [], []⟩ n

/-- C1: after `Manager.run()` over a hook exposing the ranges in `ranges`
(one terminal message reported per injected range), the messages delivered
to `handle_out_message` are exactly the ids handed out across all
`get_event_ranges` calls — the two records coincide as lists, the injected
record is the whole store, and `handle_out_message` was invoked exactly
`ranges.length` times, never more. -/
theorem spec_c1_run_es_delivers_every_range (ranges : List String) (n : Nat)
    (hn : 1 ≤ n) :
    get_outputs (esmanager_run_es ranges n) =
        get_injected_event_ranges (esmanager_run_es ranges n) ∧
      get_injected_event_ranges (esmanager_run_es ranges n) = ranges ∧
      (get_outputs (esmanager_run_es ranges n)).length = ranges.length := by
  have h := es_run_eq (⟨ranges, [], []⟩ : ESHookState String String) n hn
  simp [esmanager_run_es, h, get_outputs, get_injected_event_ranges]

/-- C1 witness: a three-range store driven with batch size two. -/
theorem spec_c1_run_es_delivers_every_range_witness :
    (1 : Nat) ≤ 2 ∧
      (get_outputs (esmanager_run_es ["a", "b", "c"] 2) =
          get_injected_event_ranges (esmanager_run_es ["a", "b", "c"] 2) ∧
        get_injected_event_ranges (esmanager_run_es ["a", "b", "c"] 2) =
          ["a", "b", "c"] ∧
        (get_outputs (esmanager_run_es ["a", "b", "c"] 2)).length = 3) :=
  ⟨by decide, spec_c1_run_es_delivers_every_range ["a", "b", "c"] 2 (by decide)⟩

/-! ## Parser claims -/

/-- C3: `parse_out_message` is a pure, total, deterministic Lean function
over all strings (so it can never raise), and on every input matching
neither the failure shape nor the success shape it returns the record with
status failed, empty id, and the original text as the message. -/
theorem spec_c3_parse_out_message_fallback (text : String)
    (hf : match_failure_shape text.data = none)
    (hs : match_success_shape text.data = none) :
    parse_out_message text =
      { id := "", status := .failed, output := none, cpu := none,
        wall := none, message := text } := by
  simp [parse_out_message, hf, hs]

/-- C3 witness: a free-text diagnostic line matching neither shape. -/
theorem spec_c3_parse_out_message_fallback_witness :
    match_failure_shape "not a protocol line".data = none ∧
      match_success_shape "not a protocol line".data = none ∧
      parse_out_message "not a protocol line" =
        { id := "", status := .failed, output := none, cpu := none,
          wall := none, message := "not a protocol line" } :=
  ⟨by decide, by decide,
    spec_c3_parse_out_message_fallback "not a protocol line"
      (by decide) (by decide)⟩

/-- C4: every input line of the success shape — a leading file-path segment
followed by comma-separated KEY:value segments including `ID:`, `CPU:` and
`WALL:` — parses to status finished with the id, cpu and wall taken from
their segments and the full input text as the message. -/
theorem spec_c4_parse_success_shape (text : String) (path i : List Char)
    (c w : Nat) (hf : match_failure_shape text.data = none)
    (hs : match_success_shape text.data = some (path, i, c, w)) :
    parse_out_message text =
      { id := String.mk i, status := .finished,
        output := some (String.mk path), cpu := some c, wall := some w,
        message := text } := by
  simp [parse_out_message, hf, hs]

/-- C4 witness: the sample HITS line of the spec yields status finished, id
`12164365-3616045203-10980024041-4138-8`, cpu 288 and wall 303. -/
theorem spec_c4_parse_success_shape_witness :
    match_failure_shape
        "/tmp/HITS.1.pool.root.1,ID:12164365-3616045203-10980024041-4138-8,CPU:288,WALL:303".data
        = none ∧
      match_success_shape
        "/tmp/HITS.1.pool.root.1,ID:12164365-3616045203-10980024041-4138-8,CPU:288,WALL:303".data
        = some ("/tmp/HITS.1.pool.root.1".data,
            "12164365-3616045203-10980024041-4138-8".data, 288, 303) ∧
      parse_out_message
        "/tmp/HITS.1.pool.root.1,ID:12164365-3616045203-10980024041-4138-8,CPU:288,WALL:303"
        = { id := "12164365-3616045203-10980024041-4138-8",
            status := .finished, output := some "/tmp/HITS.1.pool.root.1",
            cpu := some 288, wall := some 303,
            message := "/tmp/HITS.1.pool.root.1,ID:12164365-3616045203-10980024041-4138-8,CPU:288,WALL:303" } :=
  ⟨by decide, by decide, by
    have h := spec_c4_parse_success_shape
      "/tmp/HITS.1.pool.root.1,ID:12164365-3616045203-10980024041-4138-8,CPU:288,WALL:303"
      "/tmp/HITS.1.pool.root.1".data
      "12164365-3616045203-10980024041-4138-8".data 288 303
      (by decide) (by decide)
    exact h.trans (by decide)⟩

/-- C5: every input line of the failure shape — a first token beginning
`ERR_`, whitespace, an identifier token ending in a colon, and a free-text
reason — parses to status failed with the full input text as the message and
the id equal to the identifier token (colon removed) with any trailing
hyphen-delimited event-index suffix beyond the canonical multi-segment id
stripped. -/
theorem spec_c5_parse_failure_shape (text : String) (errTok idTok r : List Char)
    (rest : List (List Char))
    (htok : tokensOf text.data = errTok :: idTok :: r :: rest)
    (herr : startsWithTok "ERR_".data errTok = true)
    (hcolon : idTok.getLast? = some (Char.ofNat 58)) :
    parse_out_message text =
      { id := String.mk (strip_event_index idTok.dropLast), status := .failed,
        output := none, cpu := none, wall := none, message := text } := by
  simp [parse_out_message, match_failure_shape, htok, herr, hcolon]

/-- C5 witness: the sample ERR_ATHENAMP_PROCESS line of the spec yields
status failed and id `130-2068634812-21368-1-4`. -/
theorem spec_c5_parse_failure_shape_witness :
    tokensOf
        "ERR_ATHENAMP_PROCESS 130-2068634812-21368-1-4: Failed to process event range".data
        = ["ERR_ATHENAMP_PROCESS".data, "130-2068634812-21368-1-4:".data,
            "Failed".data, "to".data, "process".data, "event".data,
            "range".data] ∧
      parse_out_message
        "ERR_ATHENAMP_PROCESS 130-2068634812-21368-1-4: Failed to process event range"
        = { id := "130-2068634812-21368-1-4", status := .failed,
            output := none, cpu := none, wall := none,
            message := "ERR_ATHENAMP_PROCESS 130-2068634812-21368-1-4: Failed to process event range" } :=
  ⟨by decide, by
    have h := spec_c5_parse_failure_shape
      "ERR_ATHENAMP_PROCESS 130-2068634812-21368-1-4: Failed to process event range"
      "ERR_ATHENAMP_PROCESS".data "130-2068634812-21368-1-4:".data
      "Failed".data
      ["to".data, "process".data, "event".data, "range".data]
      (by decide) (by decide) (by decide)
    exact h.trans (by decide)⟩

/-! ## The generic HPC workflow (`run` in `pilot/workflow/generic_hpc.py`)

The `run` function wraps its whole job workflow in one try block. Before the
try block it computes the communication point and the initial work report;
inside it, it first installs the signal handler, then assigns the `traces`
object, returns early with FAILURE when no HPC resource is named, and
otherwise executes the resource/user setup, payload execution, report
parsing, cleanup, tarring, copying and stage-out declaration, publishing the
work report at three points. The except clause sets the jobStatus of the
work report to failed, records the exception text as exitMsg, publishes the
work report, sets the pilot trace state to FAILURE, and the function returns
`traces`. The external collaborators (`publish_work_report`, the resource
and user modules, `execute`, the file utilities) are not among the available
sources; each fallible call site is therefore driven by an oracle saying
whether it raises, and `publish_work_report` is recorded as an event. -/

/-- The pilot trace state constants SUCCESS and FAILURE of
`pilot.util.constants`. -/
inductive PilotState where
  | SUCCESS
  | FAILURE
  deriving DecidableEq, Repr

/-- The observable work-report state threaded through `run`: the current
jobStatus entry, the exitMsg entry, and the jobStatus value at each
`publish_work_report` call in order. -/
structure WorkState where
  job_status : String
  exit_msg : Option String
  published : List String
  deriving DecidableEq, Repr

/-- Environment of one `run` call: the `hpc_resource` argument, whether the
payload child exits with code zero, and the oracle naming the one fallible
statement (by its index) that raises, together with the exception text. -/
structure RunEnv where
  hpc_resource : String
  child_exit_zero : Bool
  fail_at : Option (Nat × String)
  deriving DecidableEq, Repr

/-- Whether the fallible statement of index `i` raises in `env`, and with
which exception text. -/
def raises_at (env : RunEnv) (i : Nat) : Option String :=
  match env.fail_at with
  | some (j, m) => if i = j then some m else none
  | none => none

/-- Appends one `publish_work_report(work_report, ...)` event: the report
carries the current jobStatus. -/
def publish_work_report (st : WorkState) : WorkState :=
  { st with published := st.published ++ [st.job_status] }

/-- Effect of the `i`-th fallible statement of the try block when it does
not raise. Indices follow source order: 1 resource import, 2 user import,
3 `get_job`, 4 `set_job_workdir` and the workdir entry, 5 jobStatus starting
plus publish, 6 setup and scratch directory and command preparation,
7 jobStatus running plus publish, 8 payload execution and the exit-code
driven jobStatus, 9 job-report parsing, 10 workdir postprocess, cleanup and
log tar, 11 copy of outputs, 12 stage-out declaration, 13 final publish. -/
def step_effect (env : RunEnv) (i : Nat) (st : WorkState) : WorkState :=
  if i = 5 then publish_work_report { st with job_status := "starting" }
  else if i = 7 then publish_work_report { st with job_status := "running" }
  else if i = 8 then
    { st with job_status := if env.child_exit_zero then "finished" else "failed" }
  else if i = 13 then publish_work_report st
  else st

/-- Runs the listed fallible statements in order; the first one the oracle
makes raise aborts the sequence with the exception text and the work-report
state at that point. -/
def run_steps (env : RunEnv) (st : WorkState) :
    List Nat → Except (String × WorkState) WorkState
  | [] => .ok st
  | i :: rest =>
    match raises_at env i with
    | some m => .error (m, st)
    | none => run_steps env (step_effect env i st) rest

/-- The indices of the fallible statements of the try block that follow the
assignment of `traces`. -/
def try_steps : List Nat := [1, 2, 3, 4, 5, 6, 7, 8, 9, 10, 11, 12, 13]

/-- Result of one `run` call: the final work-report state, the pilot trace
state (`none` when `traces` was never assigned), whether the function
returned `traces` normally, and an exception escaping `run` itself, if
any. -/
structure RunResult where
  work : WorkState
  traces_state : Option PilotState
  returned : Bool
  uncaught : Option String
  deriving DecidableEq, Repr

/-- The except clause of `run`: jobStatus failed, exitMsg set to the
exception text, one more publish of the work report. -/
def except_clause (m : String) (st : WorkState) : WorkState :=
  publish_work_report { st with job_status := "failed", exit_msg := some m }

/-- `run(args)` of `pilot/workflow/generic_hpc.py`. Statement index 0 is the
signal-handler installation, the only fallible statement before `traces` is
assigned; when it raises, the except clause runs but `traces` is unbound, so
`return traces` itself raises and nothing is returned. After `traces` is
assigned, an empty `hpc_resource` returns early with FAILURE, and otherwise
the fallible statements `try_steps` run in order; when one raises, the
except clause runs, the trace state becomes FAILURE and `traces` is still
returned. -/
def generic_hpc_run (env : RunEnv) : RunResult :=
  let st0 : WorkState :=
    { job_status := "starting", exit_msg := none, published := [] }
  match raises_at env 0 with
  | some m =>
    { work := except_clause m st0, traces_state := none, returned := false,
      uncaught := some "NameError" }
  | none =>
    if env.hpc_resource = "" then
      { work := st0, traces_state := some .FAILURE, returned := true,
        uncaught := none }
    else
      match run_steps env st0 try_steps with
      | .ok st =>
        { work := st, traces_state := some .SUCCESS, returned := true,
          uncaught := none }
      | .error (m, st) =>
        { work := except_clause m st, traces_state := some .FAILURE,
          returned := true, uncaught := none }

theorem run_steps_error_of_mem (env : RunEnv) (i : Nat) (m : String)
    (hfail : env.fail_at = some (i, m)) :
    ∀ (l : List Nat) (st : WorkState), i ∈ l →
      ∃ st2, run_steps env st l = .error (m, st2) := by
  intro l
  induction l with
  | nil => intro st h; cases h
  | cons k rest ih =>
    intro st hmem
    by_cases hk : k = i
    · subst hk
      refine ⟨st, ?_⟩
      simp [run_steps, raises_at, hfail]
    · have hne : raises_at env k = none := by
        simp [raises_at, hfail]
        omega
      have hmem2 : i ∈ rest := by
        rcases List.mem_cons.1 hmem with h | h
        · exact absurd h.symm hk
        · exact h
      rcases ih (step_effect env k st) hmem2 with ⟨st2, h2⟩
      exact ⟨st2, by simp [run_steps, hne, h2]⟩

/-- C9: whenever a fallible statement of the try block that comes after the
assignment of `traces` raises, `run` catches the exception instead of
re-raising it, sets the jobStatus of the work report to failed and its
exitMsg to the exception text, publishes the work report once more with that
failed status, sets the pilot trace state to FAILURE, and returns the traces
object. -/
theorem spec_c9_run_catches_post_traces_exceptions (env : RunEnv) (i : Nat)
    (m : String) (hfail : env.fail_at = some (i, m)) (h1 : 1 ≤ i)
    (h13 : i ≤ 13) (hres : env.hpc_resource ≠ "") :
    (generic_hpc_run env).work.job_status = "failed" ∧
      (generic_hpc_run env).work.exit_msg = some m ∧
      (generic_hpc_run env).work.published.getLast? = some "failed" ∧
      (generic_hpc_run env).traces_state = some PilotState.FAILURE ∧
      (generic_hpc_run env).returned = true ∧
      (generic_hpc_run env).uncaught = none := by
  have h0 : raises_at env 0 = none := by
    simp [raises_at, hfail]
    omega
  have hmem : i ∈ try_steps := by
    simp [try_steps]
    omega
  rcases run_steps_error_of_mem env i m hfail try_steps
    { job_status := "starting", exit_msg := none, published := [] }
    hmem with ⟨st2, herr⟩
  simp [generic_hpc_run, h0, hres, herr, except_clause, publish_work_report]

/-- The concrete environment of the C9 witness: an HPC resource is named
and the sixth fallible statement (setup and scratch preparation) raises
with text boom. -/
def c9WitnessEnv : RunEnv :=
  { hpc_resource := "nersc", child_exit_zero := true,
    fail_at := some (6, "boom") }

/-- C9 witness: in `c9WitnessEnv`, `run` catches the exception, reports the
failed work report, sets the trace state to FAILURE and returns. -/
theorem spec_c9_run_catches_post_traces_exceptions_witness :
    (c9WitnessEnv.fail_at = some (6, "boom") ∧ (1 : Nat) ≤ 6 ∧
        (6 : Nat) ≤ 13 ∧ c9WitnessEnv.hpc_resource ≠ "") ∧
      ((generic_hpc_run c9WitnessEnv).work.job_status = "failed" ∧
        (generic_hpc_run c9WitnessEnv).work.exit_msg = some "boom" ∧
        (generic_hpc_run c9WitnessEnv).work.published.getLast?
          = some "failed" ∧
        (generic_hpc_run c9WitnessEnv).traces_state
          = some PilotState.FAILURE ∧
        (generic_hpc_run c9WitnessEnv).returned = true ∧
        (generic_hpc_run c9WitnessEnv).uncaught = none) :=
  ⟨⟨by decide, by decide, by decide, by decide⟩,
    spec_c9_run_catches_post_traces_exceptions c9WitnessEnv 6 "boom"
      (by decide) (by decide) (by decide) (by decide)⟩

end Pilot2
